import Mathlib

/-!
Shallow embedding of the multiplayer session-coordination layer of the
geografico client (src/context/MultiplayerContext.tsx, the current revision
with debug logging, plus the room-code generation in createRoom).

The persistent store (tables `rooms`, `room_players`, `game_state`) is
modelled as lists of records; each controller operation is a pure function
from the caller's local view (user identity, local room / players /
gameState snapshots) and the store to the updated store, mirroring the
sequence of writes the source issues.
-/

/-- Question payloads are opaque structured data to this layer
(`current_question: any` in the source); modelled as an opaque string. -/
abbrev Question := String

/-- Room lifecycle status, `status: 'waiting' | 'playing' | 'finished'`. -/
inductive RoomStatus where
  | waiting
  | playing
  | finished
deriving DecidableEq, Repr

/-- Row of the `rooms` table (interface Room in the source). -/
structure Room where
  id : String
  room_code : String
  host_id : String
  game_mode : String
  status : RoomStatus
  max_players : Nat
  created_at : String
deriving DecidableEq, Repr

/-- Denormalized display profile attached to a local roster entry. -/
structure Profile where
  username : String
  avatar_url : String
deriving DecidableEq, Repr

/-- Row of the `room_players` table: the flat columns the client reads and
writes (no profile; the profile is a client-side enrichment). -/
structure PlayerRow where
  id : String
  room_id : String
  player_id : String
  score : Int
  lives : Int
  is_ready : Bool
  created_at : String
deriving DecidableEq, Repr

/-- A client-local roster entry (interface Player in the source): the row
fields plus the denormalized display profile. -/
structure Player where
  id : String
  room_id : String
  player_id : String
  score : Int
  lives : Int
  is_ready : Bool
  joined_at : String
  profile : Option Profile
deriving DecidableEq, Repr

/-- Client-local view of the `game_state` row (interface GameState). -/
structure GameState where
  id : String
  room_id : String
  current_turn : String
  current_question : Question
  round : Int
  time_left : Int
  updated_at : String
deriving DecidableEq, Repr

/-- Stored `game_state` row: the fields the client writes on insert/update
(`room_id, current_turn, current_question, round, time_left`). -/
structure TurnRow where
  room_id : String
  current_turn : String
  current_question : Question
  round : Int
  time_left : Int
deriving DecidableEq, Repr

/-- The persistent store: the three tables this layer mutates. -/
structure DB where
  rooms : List Room
  room_players : List PlayerRow
  game_state : List TurnRow
deriving DecidableEq, Repr

/-- DB-side column defaults filled in for a `room_players` insert that only
supplies `room_id`, `player_id`, `is_ready` (the schema is outside this
client; the defaulted values are parameters of the model). -/
structure RowDefaults where
  id : String
  score : Int
  lives : Int
  created_at : String
deriving DecidableEq, Repr

/-- DB-side defaults for a `rooms` insert (generated id, timestamp). -/
structure RoomDefaults where
  id : String
  created_at : String
deriving DecidableEq, Repr

/-- Modelled from the spec: the `rooms` table's DB-side default for the
`status` column, which createRoom's insert does not supply (the schema is
not under src/). Spec: "persists a new Room with status=waiting". -/
def defaultRoomStatus : RoomStatus := .waiting

/-- Lower-case base-36 digits, the alphabet of `Number.toString(36)`. -/
def DIGITS36 : List Char := "0123456789abcdefghijklmnopqrstuvwxyz".toList

/-- Model of `x.toString(36)` for the value returned by `Math.random()`,
which lies in [0,1). Per ECMAScript, the value +0 prints as "0"; any other
value prints as "0." followed by its base-36 fraction digits (lower-case).
The digit list (empty exactly for the value 0) stands in for the random
draw. -/
def jsToString36 (fracDigits : List Char) : String :=
  if fracDigits.isEmpty then "0" else "0." ++ String.mk fracDigits

/-- Model of `String.prototype.substring(start, finish)`: swaps the bounds
if needed and clamps them to the string length. -/
def jsSubstring (s : String) (start finish : Nat) : String :=
  String.mk (((s.toList).drop (min start finish)).take (max start finish - min start finish))

/-- Model of `String.prototype.toUpperCase()` on ASCII data. -/
def jsToUpperCase (s : String) : String :=
  String.mk (s.toList.map Char.toUpper)

/-- The room-code expression in createRoom:
`Math.random().toString(36).substring(2, 8).toUpperCase()`. -/
def generateRoomCode (fracDigits : List Char) : String :=
  jsToUpperCase (jsSubstring (jsToString36 fracDigits) 2 8)

/-- Number of `room_players` rows of a given room, as counted by joinRoom's
`select('*', \x7b count: 'exact' \x7d).eq('room_id', ...)`. -/
def rosterCount (db : DB) (roomId : String) : Nat :=
  (db.room_players.filter (fun p => p.room_id == roomId)).length

/-- createRoom (source: `const roomCode = Math.random()...`; insert into
`rooms` with room_code/host_id/game_mode/max_players 6; insert the creator
into `room_players` with is_ready true). Returns the room code on success. -/
def createRoom (user : Option String) (gameMode : String) (fracDigits : List Char)
    (rdef : RoomDefaults) (pdef : RowDefaults) (db : DB) : DB × Option String :=
  match user with
  | none => (db, none)
  | some u =>
    let roomCode := generateRoomCode fracDigits
    let newRoom : Room :=
      { id := rdef.id, room_code := roomCode, host_id := u, game_mode := gameMode,
        status := defaultRoomStatus, max_players := 6, created_at := rdef.created_at }
    let db1 : DB := { db with rooms := db.rooms ++ [newRoom] }
    let db2 : DB :=
      { db1 with room_players := db1.room_players ++
          [{ id := pdef.id, room_id := newRoom.id, player_id := u,
             score := pdef.score, lives := pdef.lives, is_ready := true,
             created_at := pdef.created_at }] }
    (db2, some roomCode)

/-- joinRoom (source: look up the room by code with `.single()`; if the
caller already has a row, update `is_ready` to true; otherwise count the
roster, throw "Room is full" when `count && count >= (max_players || 6)`,
else insert a row with is_ready true). Returns (store, success, error). -/
def joinRoom (user : Option String) (code : String) (pdef : RowDefaults)
    (db : DB) : DB × Bool × Option String :=
  match user with
  | none => (db, false, none)
  | some u =>
    match db.rooms.find? (fun r => r.room_code == code) with
    | none => (db, false, some "Room not found")
    | some foundRoom =>
      match db.room_players.find? (fun p => p.room_id == foundRoom.id && p.player_id == u) with
      | some _ =>
        ({ db with room_players := db.room_players.map fun p =>
            if p.room_id = foundRoom.id ∧ p.player_id = u then { p with is_ready := true } else p },
         true, none)
      | none =>
        let count := rosterCount db foundRoom.id
        let cap := if foundRoom.max_players = 0 then 6 else foundRoom.max_players
        if count ≠ 0 ∧ count ≥ cap then (db, false, some "Room is full")
        else
          ({ db with room_players := db.room_players ++
              [{ id := pdef.id, room_id := foundRoom.id, player_id := u,
                 score := pdef.score, lives := pdef.lives, is_ready := true,
                 created_at := pdef.created_at }] },
           true, none)

/-- leaveRoom (source: delete the caller's `room_players` row for the
current room; local teardown is not part of the store model). -/
def leaveRoom (user : Option String) (room : Option Room) (db : DB) : DB :=
  match user, room with
  | some u, some r =>
    { db with room_players :=
        db.room_players.filter fun p => !(p.room_id == r.id && p.player_id == u) }
  | _, _ => db

/-- toggleReady (source: flip the caller's local `is_ready` snapshot into
the store with an update keyed on (room_id, player_id)). -/
def toggleReady (user : Option String) (room : Option Room) (players : List Player)
    (db : DB) : DB :=
  match user, room with
  | some u, some r =>
    match players.find? (fun p => p.player_id == u) with
    | none => db
    | some me =>
      { db with room_players := db.room_players.map fun p =>
          if p.room_id = r.id ∧ p.player_id = u then { p with is_ready := !me.is_ready } else p }
  | _, _ => db

/-- startGame (source: return if no user/room; return if the caller is not
the host; set an error and return unless `players.every(p => p.is_ready)`;
otherwise update the room's status to playing and insert the initial
`game_state` row with current_turn = host, round 1, time_left 30). -/
def startGame (user : Option String) (room : Option Room) (players : List Player)
    (initialQuestion : Question) (db : DB) : DB × Option String :=
  match user, room with
  | some u, some r =>
    if r.host_id ≠ u then (db, none)
    else if ¬ (players.all (fun p => p.is_ready)) then (db, some "Not all players are ready")
    else
      ({ db with
          rooms := db.rooms.map fun rm =>
            if rm.id = r.id then { rm with status := .playing } else rm,
          game_state := db.game_state ++
            [{ room_id := r.id, current_turn := r.host_id,
               current_question := initialQuestion, round := 1, time_left := 30 }] },
       none)
  | _, _ => (db, none)

/-- Model of `players.findIndex(p => p.player_id === pid)`: the index of the
first match, or -1 when there is none. -/
def jsFindIndex (players : List Player) (pid : String) : Int :=
  match players.findIdx? (fun p => p.player_id == pid) with
  | some i => (i : Int)
  | none => -1

/-- submitAnswer (source: return if no user/room/gameState or the caller is
not in the local roster; write score+1 or lives-1 from the local snapshot;
then, when a next question is supplied, rotate: nextIndex =
(findIndex(current_turn) + 1) % players.length — JS `%` is the truncated
remainder, Int.tmod — and update the `game_state` row with the next
player, the new question, round incremented when the rotation wraps to
index 0, and time_left 30; indexing an absent element would throw before
the update is issued, modelled by the `none` branch of the lookup). -/
def submitAnswer (user : Option String) (room : Option Room) (gameState : Option GameState)
    (players : List Player) (isCorrect : Bool) (nextQuestion : Option Question)
    (db : DB) : DB :=
  match user, room, gameState with
  | some u, some r, some gs =>
    match players.find? (fun p => p.player_id == u) with
    | none => db
    | some me =>
      let db1 : DB :=
        if isCorrect then
          { db with room_players := db.room_players.map fun p =>
              if p.room_id = r.id ∧ p.player_id = u then { p with score := me.score + 1 } else p }
        else
          { db with room_players := db.room_players.map fun p =>
              if p.room_id = r.id ∧ p.player_id = u then { p with lives := me.lives - 1 } else p }
      match nextQuestion with
      | none => db1
      | some q =>
        let currentIndex := jsFindIndex players gs.current_turn
        let nextIndex := Int.tmod (currentIndex + 1) (players.length : Int)
        match players[nextIndex.toNat]? with
        | none => db1
        | some nextPlayer =>
          { db1 with game_state := db1.game_state.map fun t =>
              if t.room_id = r.id then
                { t with current_turn := nextPlayer.player_id,
                         current_question := q,
                         round := gs.round + (if nextIndex = 0 then 1 else 0),
                         time_left := 30 }
              else t }
  | _, _, _ => db

/-- The last-man-standing effect (source: when the local view shows
status=playing, exactly one roster entry and not loading, only the client
whose identity equals the room's host issues the update of the room's
status to finished). Returns the write issued, if any. -/
def lastManStandingWrite (user : Option String) (room : Option Room)
    (players : List Player) (loading : Bool) : Option (String × RoomStatus) :=
  match room with
  | none => none
  | some r =>
    if r.status = .playing ∧ players.length = 1 ∧ ¬ loading then
      let isHost : Bool := match user with
        | some u => r.host_id == u
        | none => false
      if isHost then some (r.id, .finished) else none
    else none

/-- The UPDATE branch of the roster change-feed handler (source: replace
score, lives and is_ready of the local entry whose id matches the payload
row, keeping every other field — in particular the profile — and leaving
every other entry untouched). -/
def applyRosterUpdate (prev : List Player) (payload : PlayerRow) : List Player :=
  prev.map fun p =>
    if p.id = payload.id then
      { p with score := payload.score, lives := payload.lives, is_ready := payload.is_ready }
    else p

/-- A join-or-leave step, for roster-capacity reasoning over sequences. -/
inductive RoomOp where
  | join (user : Option String) (code : String) (pdef : RowDefaults)
  | leave (user : Option String) (room : Option Room)

/-- Run one join/leave step against the store. -/
def applyRoomOp : RoomOp → DB → DB
  | .join u c pd, db => (joinRoom u c pd db).1
  | .leave u r, db => leaveRoom u r db

/-- Run a sequence of join/leave steps against the store. -/
def applyRoomOps : List RoomOp → DB → DB
  | [], db => db
  | op :: rest, db => applyRoomOps rest (applyRoomOp op db)

/-- Any operation of the session controller, with the caller-local state it
closes over. -/
inductive CtrlOp where
  | create (user : Option String) (gameMode : String) (fracDigits : List Char)
      (rdef : RoomDefaults) (pdef : RowDefaults)
  | join (user : Option String) (code : String) (pdef : RowDefaults)
  | leave (user : Option String) (room : Option Room)
  | ready (user : Option String) (room : Option Room) (players : List Player)
  | start (user : Option String) (room : Option Room) (players : List Player) (q : Question)
  | answer (user : Option String) (room : Option Room) (gs : Option GameState)
      (players : List Player) (isCorrect : Bool) (nextQuestion : Option Question)

/-- Run one controller operation against the store. -/
def applyOp : CtrlOp → DB → DB
  | .create u m d rd pd, db => (createRoom u m d rd pd db).1
  | .join u c pd, db => (joinRoom u c pd db).1
  | .leave u r, db => leaveRoom u r db
  | .ready u r ps, db => toggleReady u r ps db
  | .start u r ps q, db => (startGame u r ps q db).1
  | .answer u r gs ps c nq, db => submitAnswer u r gs ps c nq db

/-- Whether an operation is the lives-decrementing path (submitAnswer with
isCorrect = false). -/
def livesDecrementOp : CtrlOp → Bool
  | .answer _ _ _ _ isCorrect _ => !isCorrect
  | _ => false

/-- The DB-default record an operation may insert a fresh row with. -/
def opInsertDefaults : CtrlOp → Option RowDefaults
  | .create _ _ _ _ pd => some pd
  | .join _ _ pd => some pd
  | _ => none

/-! Concrete fixtures used by counterexamples and witnesses. -/

/-- A waiting room hosted by "h". -/
def roomW : Room :=
  { id := "r1", room_code := "ABC123", host_id := "h", game_mode := "deathmatch",
    status := .waiting, max_players := 6, created_at := "t0" }

/-- The same room once playing. -/
def roomP : Room := { roomW with status := .playing }

/-- Stored roster row of the host. -/
def rowH : PlayerRow :=
  { id := "p1", room_id := "r1", player_id := "h", score := 0, lives := 3,
    is_ready := true, created_at := "t1" }

/-- Stored roster row of a second participant "b". -/
def rowB : PlayerRow :=
  { id := "p2", room_id := "r1", player_id := "b", score := 0, lives := 3,
    is_ready := true, created_at := "t2" }

/-- Local roster entry of the host. -/
def entryH : Player :=
  { id := "p1", room_id := "r1", player_id := "h", score := 0, lives := 3,
    is_ready := true, joined_at := "t1", profile := some { username := "ha", avatar_url := "u1" } }

/-- Local roster entry of participant "b". -/
def entryB : Player :=
  { id := "p2", room_id := "r1", player_id := "b", score := 0, lives := 3,
    is_ready := true, joined_at := "t2", profile := some { username := "bo", avatar_url := "u2" } }

/-- A waiting store with the host and "b" on the roster. -/
def dbW : DB := { rooms := [roomW], room_players := [rowH, rowB], game_state := [] }

/-- Client-local turn view: it is the host's turn. -/
def gsH : GameState :=
  { id := "g1", room_id := "r1", current_turn := "h", current_question := "Q1",
    round := 1, time_left := 12, updated_at := "t3" }

/-- A playing store with a live turn row. -/
def dbPlaying : DB :=
  { rooms := [roomP], room_players := [rowH, rowB],
    game_state := [{ room_id := "r1", current_turn := "h", current_question := "Q1",
                     round := 1, time_left := 12 }] }

/-- Local roster entry of "b" with zero lives left. -/
def entryB0 : Player := { entryB with lives := 0 }

/-- A playing store where "b" has zero lives left. -/
def dbZero : DB :=
  { rooms := [roomP], room_players := [rowH, { rowB with lives := 0 }], game_state := [] }

/-- A turn view whose current_turn participant has left the roster. -/
def gsGone : GameState := { gsH with current_turn := "gone" }

/-! Theorems. -/

/-- Claim C1, counterexample: with an empty local roster and the host
calling, startGame does NOT fail — `players.every(p => p.is_ready)` is
vacuously true, so the room's status is written to playing and a TurnState
row is inserted, contradicting "if the roster is empty ... the operation
fails and performs no state change". -/
theorem startGame_empty_roster_proceeds :
    (startGame (some "h") (some roomW) ([] : List Player) "Q1" dbW).1 ≠ dbW ∧
    (startGame (some "h") (some roomW) ([] : List Player) "Q1" dbW).1.rooms
      = [{ roomW with status := .playing }] ∧
    (startGame (some "h") (some roomW) ([] : List Player) "Q1" dbW).1.game_state
      = [{ room_id := "r1", current_turn := "h", current_question := "Q1",
           round := 1, time_left := 30 }] := by
  decide

/-- Claim C1 (amended): for every call to startGame, if the calling user is
not the room's host or some roster entry has ready=false, the operation
fails and performs no state change — neither the Room's status nor any
TurnState is written (an empty roster does not cause failure: the all-ready
check is vacuously satisfied). -/
theorem startGame_guard_no_state_change :
    ∀ (u : String) (r : Room) (players : List Player) (q : Question) (db : DB),
      r.host_id ≠ u ∨ (∃ p ∈ players, p.is_ready = false) →
      (startGame (some u) (some r) players q db).1 = db ∧
      (r.host_id = u →
        (startGame (some u) (some r) players q db).2 = some "Not all players are ready") := by
  intro u r players q db h
  rcases h with hne | ⟨p, hp, hpr⟩
  · exact ⟨by simp [startGame, hne], fun hh => absurd hh hne⟩
  · have hall : players.all (fun p => p.is_ready) = false := by
      rw [List.all_eq_false]
      exact ⟨p, hp, by simp [hpr]⟩
    by_cases hh : r.host_id = u
    · constructor <;> simp [startGame, hh, hall]
    · exact ⟨by simp [startGame, hh], fun h' => absurd h' hh⟩

/-- Witness for the amended C1 theorem at a concrete non-host caller. -/
theorem startGame_guard_no_state_change_witness :
    (startGame (some "x") (some roomW) [entryH] "Q1" dbW).1 = dbW := by
  exact (startGame_guard_no_state_change "x" roomW [entryH] "Q1" dbW (Or.inl (by decide))).1

/-- Claim C5: a successful startGame by the host with every roster entry
ready sets the room's status to playing and inserts the TurnState row with
current_turn = host, round = 1, time_left = 30 and the supplied initial
question. -/
theorem startGame_success_effects :
    ∀ (u : String) (r : Room) (players : List Player) (q : Question) (db : DB),
      r.host_id = u →
      (∀ p ∈ players, p.is_ready = true) →
      startGame (some u) (some r) players q db =
        ({ db with
            rooms := db.rooms.map fun rm =>
              if rm.id = r.id then { rm with status := .playing } else rm,
            game_state := db.game_state ++
              [{ room_id := r.id, current_turn := r.host_id,
                 current_question := q, round := 1, time_left := 30 }] },
         none) := by
  intro u r players q db hh hready
  have hall : players.all (fun p => p.is_ready) = true := by
    rw [List.all_eq_true]
    intro p hp
    exact hready p hp
  simp [startGame, hh, hall]

/-- Witness for C5 at a concrete two-player room. -/
theorem startGame_success_effects_witness :
    startGame (some "h") (some roomW) [entryH, entryB] "Q1" dbW =
      ({ dbW with
          rooms := [{ roomW with status := .playing }],
          game_state := [{ room_id := "r1", current_turn := "h",
                           current_question := "Q1", round := 1, time_left := 30 }] },
       none) := by
  have h := startGame_success_effects "h" roomW [entryH, entryB] "Q1" dbW (by decide)
    (by decide)
  rw [h]
  decide

/-- Claim C6: while the local view shows status=playing and exactly one
roster entry, only the host's client issues the write of status=finished;
a non-host client observing the same condition issues no write. -/
theorem lastManStanding_host_only :
    ∀ (user : Option String) (r : Room) (players : List Player) (loading : Bool),
      r.status = .playing → players.length = 1 →
      (user ≠ some r.host_id →
        lastManStandingWrite user (some r) players loading = none) ∧
      (¬ loading →
        lastManStandingWrite (some r.host_id) (some r) players loading
          = some (r.id, .finished)) := by
  intro user r players loading hst hlen
  constructor
  · intro hne
    unfold lastManStandingWrite
    by_cases hl : loading
    · simp [hl]
    · simp only [hst, hlen, hl]
      cases user with
      | none => simp
      | some u =>
        have hu : r.host_id ≠ u := fun h => hne (by rw [h])
        simp [hu]
  · intro hl
    unfold lastManStandingWrite
    simp [hst, hlen, hl]

/-- Witness for C6: in a one-player playing room hosted by "h", client "b"
issues no write and client "h" issues the finish write. -/
theorem lastManStanding_host_only_witness :
    lastManStandingWrite (some "b") (some roomP) [entryB] false = none ∧
    lastManStandingWrite (some "h") (some roomP) [entryB] false
      = some ("r1", .finished) := by
  constructor
  · exact (lastManStanding_host_only (some "b") roomP [entryB] false (by decide)
      (by decide)).1 (by decide)
  · have h := (lastManStanding_host_only (some "h") roomP [entryB] false (by decide)
      (by decide)).2 (by decide)
    simpa using h

/-- Claim C7, counterexample: when Math.random() returns 0.5 — whose
base-36 representation is "0.i" — the generated join code is "I", a single
character, contradicting "exactly 6 uppercase alphanumeric characters". -/
theorem createRoom_code_shorter_than_six :
    (createRoom (some "h") "deathmatch" ['i'] { id := "r9", created_at := "t9" }
        { id := "p9", score := 0, lives := 3, created_at := "t9" }
        { rooms := [], room_players := [], game_state := [] }).2 = some "I" ∧
    ("I" : String).length ≠ 6 := by
  decide

/-- The characters of a generated room code are the first six base-36
fraction digits of the random draw, upper-cased. -/
theorem generateRoomCode_toList (ds : List Char) :
    (generateRoomCode ds).toList = (ds.take 6).map Char.toUpper := by
  unfold generateRoomCode jsToUpperCase jsSubstring jsToString36
  by_cases h : ds.isEmpty
  · rw [if_pos h]
    rw [List.isEmpty_iff] at h
    subst h
    rfl
  · rw [if_neg h]
    rfl

/-- Claim C7 (amended): createRoom persists the new Room with
status=waiting (spec-modelled DB default) and max_players 6, inserts the
creator as a PlayerEntry with ready=true, and returns a join code that is
the upper-casing of the first six base-36 fraction digits of the random
draw — hence at most six uppercase alphanumeric characters, and exactly
six only when the draw's base-36 expansion has at least six fraction
digits. -/
theorem createRoom_effects :
    ∀ (u mode : String) (ds : List Char) (rdef : RoomDefaults) (pdef : RowDefaults) (db : DB),
      (∀ c ∈ ds, c ∈ DIGITS36) →
      (createRoom (some u) mode ds rdef pdef db).2 = some (generateRoomCode ds) ∧
      (generateRoomCode ds).length ≤ 6 ∧
      (∀ c ∈ (generateRoomCode ds).toList, c ∈ DIGITS36.map Char.toUpper) ∧
      (createRoom (some u) mode ds rdef pdef db).1.rooms =
        db.rooms ++ [{ id := rdef.id, room_code := generateRoomCode ds, host_id := u,
                       game_mode := mode, status := .waiting, max_players := 6,
                       created_at := rdef.created_at }] ∧
      (createRoom (some u) mode ds rdef pdef db).1.room_players =
        db.room_players ++ [{ id := pdef.id, room_id := rdef.id, player_id := u,
                              score := pdef.score, lives := pdef.lives, is_ready := true,
                              created_at := pdef.created_at }] := by
  intro u mode ds rdef pdef db hds
  refine ⟨rfl, ?_, ?_, rfl, rfl⟩
  · have hl : (generateRoomCode ds).length = (generateRoomCode ds).toList.length := rfl
    rw [hl, generateRoomCode_toList, List.length_map, List.length_take]
    exact min_le_left _ _
  · intro c hc
    rw [generateRoomCode_toList] at hc
    obtain ⟨d, hd, rfl⟩ := List.mem_map.mp hc
    exact List.mem_map.mpr ⟨d, hds d (List.take_subset 6 ds hd), rfl⟩

/-- Witness for the amended C7 theorem: the draw with base-36 fraction
digits "abc123xyz" yields the six-character code "ABC123". -/
theorem createRoom_effects_witness :
    ("ABC123" : String).length ≤ 6 ∧
    (createRoom (some "h") "classic" "abc123xyz".toList { id := "r9", created_at := "t9" }
        { id := "p9", score := 0, lives := 3, created_at := "t9" }
        { rooms := [], room_players := [], game_state := [] }).2 = some "ABC123" := by
  have e : (createRoom (some "h") "classic" "abc123xyz".toList { id := "r9", created_at := "t9" }
      { id := "p9", score := 0, lives := 3, created_at := "t9" }
      { rooms := [], room_players := [], game_state := [] }).2 = some "ABC123" := by decide
  obtain ⟨h1, h2, -, -, -⟩ := createRoom_effects "h" "classic" "abc123xyz".toList
    { id := "r9", created_at := "t9" } { id := "p9", score := 0, lives := 3, created_at := "t9" }
    { rooms := [], room_players := [], game_state := [] } (by decide)
  rw [e] at h1
  have hc := Option.some.inj h1
  rw [← hc] at h2
  exact ⟨h2, e⟩

/-- Claim C8: applying a roster UPDATE event replaces only score, lives and
is_ready of the matching local entry; the projection to the immutable
fields (id, player_id, joined_at, room_id and the display profile) of the
whole roster is unchanged — in particular the profile is kept, not
refetched — and non-matching entries are untouched. -/
theorem rosterUpdate_merges_only_mutable_fields :
    ∀ (prev : List Player) (payload : PlayerRow),
      (applyRosterUpdate prev payload).map
          (fun p => (p.id, p.player_id, p.joined_at, p.room_id, p.profile)) =
        prev.map (fun p => (p.id, p.player_id, p.joined_at, p.room_id, p.profile)) ∧
      ∀ p ∈ prev,
        (p.id = payload.id →
          ({ p with score := payload.score, lives := payload.lives,
                    is_ready := payload.is_ready } : Player) ∈ applyRosterUpdate prev payload) ∧
        (p.id ≠ payload.id → p ∈ applyRosterUpdate prev payload) := by
  intro prev payload
  constructor
  · unfold applyRosterUpdate
    rw [List.map_map]
    apply List.map_congr_left
    intro p hp
    by_cases h : p.id = payload.id <;> simp [h]
  · intro p hp
    constructor <;> intro h
    · exact List.mem_map.mpr ⟨p, hp, by simp [h]⟩
    · exact List.mem_map.mpr ⟨p, hp, by simp [h]⟩

/-- Witness for C8: an update event for row p2 (lives 2, not ready) merges
into entryB and leaves entryH untouched, with entryB's profile kept. -/
theorem rosterUpdate_merges_witness :
    ({ entryB with score := 0, lives := 2, is_ready := false } : Player) ∈
      applyRosterUpdate [entryH, entryB]
        { rowB with score := 0, lives := 2, is_ready := false } ∧
    entryH ∈ applyRosterUpdate [entryH, entryB]
        { rowB with score := 0, lives := 2, is_ready := false } ∧
    ({ entryB with score := 0, lives := 2, is_ready := false } : Player).profile
      = entryB.profile := by
  have h := (rosterUpdate_merges_only_mutable_fields [entryH, entryB]
    { rowB with score := 0, lives := 2, is_ready := false }).2
  exact ⟨(h entryB (by decide)).1 (by decide), (h entryH (by decide)).2 (by decide), rfl⟩

/-- Claim C3: once a successful joinRoom has run for an identity, a second
joinRoom by the same identity on the same code inserts no second
PlayerEntry row — it only maps the caller's existing row to is_ready =
true, leaving the roster length unchanged. -/
theorem joinRoom_rejoin_idempotent :
    ∀ (u code : String) (pdef1 pdef2 : RowDefaults) (db db1 : DB),
      joinRoom (some u) code pdef1 db = (db1, true, none) →
      ∃ fr, db1.rooms.find? (fun r => r.room_code == code) = some fr ∧
        joinRoom (some u) code pdef2 db1 =
          ({ db1 with room_players := db1.room_players.map fun p =>
              if p.room_id = fr.id ∧ p.player_id = u then { p with is_ready := true } else p },
           true, none) ∧
        (joinRoom (some u) code pdef2 db1).1.room_players.length
          = db1.room_players.length := by
  intro u code pdef1 pdef2 db db1 h
  unfold joinRoom at h
  dsimp only at h
  cases hfr : db.rooms.find? (fun r => r.room_code == code) with
  | none =>
    rw [hfr] at h
    dsimp only at h
    simp [Prod.ext_iff] at h
  | some fr =>
    rw [hfr] at h
    dsimp only at h
    have key : db1.rooms = db.rooms ∧ ∃ x ∈ db1.room_players,
        (x.room_id == fr.id && x.player_id == u) = true := by
      cases hex : db.room_players.find? (fun p => p.room_id == fr.id && p.player_id == u) with
      | some p0 =>
        rw [hex] at h
        dsimp only at h
        have hdb : { db with room_players := db.room_players.map fun p =>
            if p.room_id = fr.id ∧ p.player_id = u then { p with is_ready := true } else p }
            = db1 := congrArg Prod.fst h
        constructor
        · rw [← hdb]
        · rw [← hdb]
          have hp0 : p0 ∈ db.room_players := List.mem_of_find?_eq_some hex
          have hpred := List.find?_some hex
          have hcond : p0.room_id = fr.id ∧ p0.player_id = u := by simpa using hpred
          exact ⟨{ p0 with is_ready := true },
            List.mem_map.mpr ⟨p0, hp0, by simp [hcond]⟩, by simp [hcond]⟩
      | none =>
        rw [hex] at h
        dsimp only at h
        by_cases hfull : rosterCount db fr.id ≠ 0 ∧
            rosterCount db fr.id ≥ (if fr.max_players = 0 then 6 else fr.max_players)
        · rw [if_pos hfull] at h
          simp [Prod.ext_iff] at h
        · rw [if_neg hfull] at h
          have hdb : { db with room_players := db.room_players ++
              [{ id := pdef1.id, room_id := fr.id, player_id := u,
                 score := pdef1.score, lives := pdef1.lives, is_ready := true,
                 created_at := pdef1.created_at }] } = db1 := congrArg Prod.fst h
          constructor
          · rw [← hdb]
          · rw [← hdb]
            exact ⟨_, List.mem_append_right _ (List.mem_singleton.mpr rfl), by simp⟩
    obtain ⟨hrooms, hsome⟩ := key
    refine ⟨fr, by rw [hrooms]; exact hfr, ?_⟩
    cases hex2 : db1.room_players.find? (fun p => p.room_id == fr.id && p.player_id == u) with
    | none =>
      exfalso
      rw [List.find?_eq_none] at hex2
      obtain ⟨x, hx, hpx⟩ := hsome
      exact hex2 x hx hpx
    | some p1 =>
      constructor
      · unfold joinRoom
        dsimp only
        rw [hrooms, hfr]
        dsimp only
        rw [hex2]
      · unfold joinRoom
        dsimp only
        rw [hrooms, hfr]
        dsimp only
        rw [hex2]
        simp

/-- Witness for C3: "b" rejoining the two-player room leaves the roster at
two rows with b's row set ready. -/
theorem joinRoom_rejoin_idempotent_witness :
    (joinRoom (some "c") "ABC123" { id := "p4", score := 0, lives := 3, created_at := "t4" }
        ((joinRoom (some "c") "ABC123"
            { id := "p3", score := 0, lives := 3, created_at := "t3" } dbW).1)).1.room_players.length
      = 3 := by
  obtain ⟨fr, -, -, hlen⟩ := joinRoom_rejoin_idempotent "c" "ABC123"
    { id := "p3", score := 0, lives := 3, created_at := "t3" }
    { id := "p4", score := 0, lives := 3, created_at := "t4" } dbW
    ((joinRoom (some "c") "ABC123"
        { id := "p3", score := 0, lives := 3, created_at := "t3" } dbW).1)
    (by decide)
  rw [hlen]
  decide

/-- Join and leave steps never touch the `rooms` table. -/
theorem applyRoomOp_rooms (op : RoomOp) (db : DB) :
    (applyRoomOp op db).rooms = db.rooms := by
  cases op with
  | join u c pd =>
    show ((joinRoom u c pd db).1).rooms = db.rooms
    unfold joinRoom
    cases u with
    | none => rfl
    | some u' =>
      dsimp only
      cases hfr : db.rooms.find? (fun r => r.room_code == c) with
      | none => rfl
      | some fr =>
        dsimp only
        cases hex : db.room_players.find? (fun p => p.room_id == fr.id && p.player_id == u') with
        | some p0 => rfl
        | none =>
          dsimp only
          split <;> split <;> rfl
  | leave u r =>
    show (leaveRoom u r db).rooms = db.rooms
    unfold leaveRoom
    cases u with
    | none => rfl
    | some u' =>
      cases r with
      | none => rfl
      | some r' => rfl

/-- A per-row update that keeps room identifiers fixed keeps the roster
count of every room fixed. -/
theorem filter_length_map_of_room_id_eq (l : List PlayerRow) (f : PlayerRow → PlayerRow)
    (rid : String) (hf : ∀ p, (f p).room_id = p.room_id) :
    ((l.map f).filter (fun p => p.room_id == rid)).length
      = (l.filter (fun p => p.room_id == rid)).length := by
  induction l with
  | nil => rfl
  | cons x xs ih =>
    simp only [List.map_cons, List.filter_cons, hf x]
    split <;> simp [ih]

/-- One join or leave step preserves "roster count ≤ capacity" for a room
with positive capacity whose id is unambiguous in the store. -/
theorem applyRoomOp_count_le (op : RoomOp) (db : DB) (r : Room)
    (hmem : r ∈ db.rooms) (huniq : ∀ r' ∈ db.rooms, r'.id = r.id → r' = r)
    (hcap : 1 ≤ r.max_players) (hle : rosterCount db r.id ≤ r.max_players) :
    rosterCount (applyRoomOp op db) r.id ≤ r.max_players := by
  cases op with
  | leave u rm =>
    show rosterCount (leaveRoom u rm db) r.id ≤ r.max_players
    unfold leaveRoom
    cases u with
    | none => exact hle
    | some u' =>
      cases rm with
      | none => exact hle
      | some rm' =>
        refine le_trans ?_ hle
        unfold rosterCount
        exact ((List.filter_sublist _).filter _).length_le
  | join u c pd =>
    show rosterCount ((joinRoom u c pd db).1) r.id ≤ r.max_players
    unfold joinRoom
    cases u with
    | none => exact hle
    | some u' =>
      dsimp only
      cases hfr : db.rooms.find? (fun rr => rr.room_code == c) with
      | none => exact hle
      | some fr =>
        dsimp only
        cases hex : db.room_players.find? (fun p => p.room_id == fr.id && p.player_id == u') with
        | some p0 =>
          dsimp only
          unfold rosterCount
          rw [filter_length_map_of_room_id_eq]
          · exact hle
          · intro p
            by_cases h : p.room_id = fr.id ∧ p.player_id = u' <;> simp [h]
        | none =>
          dsimp only
          by_cases hfull : rosterCount db fr.id ≠ 0 ∧
              rosterCount db fr.id ≥ (if fr.max_players = 0 then 6 else fr.max_players)
          · rw [if_pos hfull]
            exact hle
          · rw [if_neg hfull]
            unfold rosterCount
            rw [List.filter_append, List.length_append]
            have hsingle : ∀ (row : PlayerRow) (rid : String),
                (([row] : List PlayerRow).filter (fun p => p.room_id == rid)).length
                  = if row.room_id = rid then 1 else 0 := by
              intro row rid
              by_cases h : row.room_id = rid <;> simp [h]
            rw [hsingle]
            dsimp only
            unfold rosterCount at hle hfull
            by_cases hid : fr.id = r.id
            · rw [if_pos hid]
              have hfr_mem : fr ∈ db.rooms := List.mem_of_find?_eq_some hfr
              have hfr_eq : fr = r := huniq fr hfr_mem hid
              have hcapeq : (if fr.max_players = 0 then 6 else fr.max_players)
                  = r.max_players := by
                rw [hfr_eq, if_neg (Nat.pos_iff_ne_zero.mp hcap)]
              rw [Decidable.not_and_iff_or_not] at hfull
              rw [hid, hcapeq] at hfull
              rcases hfull with h0 | hlt
              · have h0' : (db.room_players.filter (fun p => p.room_id == r.id)).length = 0 := by
                  by_contra hc
                  exact h0 hc
                omega
              · rw [Nat.not_le] at hlt
                omega
            · rw [if_neg hid]
              omega

/-- Claim C4: (a) for every room with positive capacity and unambiguous id,
the roster count stays at or below max_players across every sequence of
join/leave operations; (b) joinRoom by a fresh identity on a room whose
roster has reached capacity fails with "Room is full" and leaves the store
unchanged — it inserts only when the count is strictly below capacity. -/
theorem roster_capacity_invariant :
    (∀ (ops : List RoomOp) (db : DB) (r : Room),
      r ∈ db.rooms →
      (∀ r' ∈ db.rooms, r'.id = r.id → r' = r) →
      1 ≤ r.max_players →
      rosterCount db r.id ≤ r.max_players →
      rosterCount (applyRoomOps ops db) r.id ≤ r.max_players) ∧
    (∀ (u code : String) (pdef : RowDefaults) (db : DB) (fr : Room),
      db.rooms.find? (fun rm => rm.room_code == code) = some fr →
      db.room_players.find? (fun p => p.room_id == fr.id && p.player_id == u) = none →
      1 ≤ fr.max_players →
      fr.max_players ≤ rosterCount db fr.id →
      joinRoom (some u) code pdef db = (db, false, some "Room is full")) := by
  constructor
  · intro ops
    induction ops with
    | nil =>
      intro db r _ _ _ h4
      exact h4
    | cons op rest ih =>
      intro db r h1 h2 h3 h4
      have hr := applyRoomOp_rooms op db
      exact ih (applyRoomOp op db) r (by rw [hr]; exact h1)
        (fun r' hr' => h2 r' (by rw [← hr]; exact hr'))
        h3 (applyRoomOp_count_le op db r h1 h2 h3 h4)
  · intro u code pdef db fr hfr hex hcap hge
    unfold joinRoom
    dsimp only
    rw [hfr]
    dsimp only
    rw [hex]
    dsimp only
    rw [if_pos]
    constructor
    · omega
    · rw [if_neg (Nat.pos_iff_ne_zero.mp hcap)]
      exact hge

/-- Witness for C4: two further joins against the full two-seat room keep
its roster at its capacity of 2, and a direct join on the full room fails
with "Room is full". -/
theorem roster_capacity_invariant_witness :
    rosterCount
        (applyRoomOps
          [RoomOp.join (some "c") "ABC123" { id := "p3", score := 0, lives := 3, created_at := "t3" },
           RoomOp.join (some "d") "ABC123" { id := "p4", score := 0, lives := 3, created_at := "t4" }]
          { rooms := [{ roomW with max_players := 2 }], room_players := [rowH, rowB],
            game_state := [] })
        "r1" ≤ 2 ∧
    joinRoom (some "c") "ABC123" { id := "p3", score := 0, lives := 3, created_at := "t3" }
        { rooms := [{ roomW with max_players := 2 }], room_players := [rowH, rowB],
          game_state := [] }
      = ({ rooms := [{ roomW with max_players := 2 }], room_players := [rowH, rowB],
           game_state := [] }, false, some "Room is full") := by
  constructor
  · exact roster_capacity_invariant.1
      [RoomOp.join (some "c") "ABC123" { id := "p3", score := 0, lives := 3, created_at := "t3" },
       RoomOp.join (some "d") "ABC123" { id := "p4", score := 0, lives := 3, created_at := "t4" }]
      { rooms := [{ roomW with max_players := 2 }], room_players := [rowH, rowB],
        game_state := [] }
      { roomW with max_players := 2 }
      (by decide) (by decide) (by decide) (by decide)
  · exact roster_capacity_invariant.2 "c" "ABC123"
      { id := "p3", score := 0, lives := 3, created_at := "t3" }
      { rooms := [{ roomW with max_players := 2 }], room_players := [rowH, rowB],
        game_state := [] }
      { roomW with max_players := 2 }
      (by decide) (by decide) (by decide) (by decide)


/-- JS `%` (truncated remainder, Int.tmod) agrees with Nat `%` on
non-negative operands. -/
theorem tmod_natCast (m n : Nat) :
    Int.tmod (m : Int) (n : Int) = ((m % n : Nat) : Int) := rfl

/-- Claim C2: when a next question is supplied, submitAnswer moves
current_turn to the roster entry at (index of the current-turn participant
+ 1) mod roster length, increments the round exactly when that next index
is 0, resets time_left to 30 and replaces current_question; with no next
question the game_state table is left unwritten, so the turn does not
advance. -/
theorem submitAnswer_turn_rotation :
    ∀ (u : String) (r : Room) (gs : GameState) (players : List Player) (c : Bool)
      (db : DB) (me : Player) (i : Nat),
      players.find? (fun p => p.player_id == u) = some me →
      players.findIdx? (fun p => p.player_id == gs.current_turn) = some i →
      ((submitAnswer (some u) (some r) (some gs) players c none db).game_state
        = db.game_state) ∧
      (∀ q : Question, ∃ pn : Player,
        players[(i + 1) % players.length]? = some pn ∧
        (submitAnswer (some u) (some r) (some gs) players c (some q) db).game_state =
          db.game_state.map (fun t =>
            if t.room_id = r.id then
              { t with current_turn := pn.player_id, current_question := q,
                       round := gs.round + (if (i + 1) % players.length = 0 then 1 else 0),
                       time_left := 30 }
            else t)) := by
  intro u r gs players c db me i hfind hidx
  have hlen : i < players.length := (List.findIdx?_eq_some_iff_findIdx_eq.mp hidx).1
  have hpos : 0 < players.length := Nat.lt_of_le_of_lt (Nat.zero_le i) hlen
  have hji : jsFindIndex players gs.current_turn = (i : Int) := by
    unfold jsFindIndex
    rw [hidx]
  have hnn : (i + 1) % players.length < players.length := Nat.mod_lt _ hpos
  constructor
  · unfold submitAnswer
    dsimp only
    rw [hfind]
    dsimp only
    split <;> rfl
  · intro q
    have hmod : Int.tmod (jsFindIndex players gs.current_turn + 1) (players.length : Int)
        = (((i + 1) % players.length : Nat) : Int) := by
      rw [hji]
      have hcast : ((i : Int) + 1) = ((i + 1 : Nat) : Int) := by push_cast; ring
      rw [hcast, tmod_natCast]
    have hget : players[(i + 1) % players.length]?
        = some (players.get ⟨(i + 1) % players.length, hnn⟩) := by
      simp [List.getElem?_eq_getElem hnn]
    refine ⟨players.get ⟨(i + 1) % players.length, hnn⟩, hget, ?_⟩
    unfold submitAnswer
    dsimp only
    rw [hfind]
    dsimp only
    rw [hmod]
    simp only [Int.toNat_natCast, Nat.cast_eq_zero]
    rw [hget]
    dsimp only
    split <;> split <;> rfl

/-- Witness for C2 at a two-player roster [h, b] with current_turn = h:
the turn moves to b, the round stays at 1, time_left resets to 30; with no
next question the turn table is untouched. -/
theorem submitAnswer_turn_rotation_witness :
    (submitAnswer (some "h") (some roomP) (some gsH) [entryH, entryB] true (some "Q2")
        dbPlaying).game_state
      = [{ room_id := "r1", current_turn := "b", current_question := "Q2",
           round := 1, time_left := 30 }] ∧
    (submitAnswer (some "h") (some roomP) (some gsH) [entryH, entryB] true none
        dbPlaying).game_state
      = dbPlaying.game_state := by
  obtain ⟨hnone, hsome⟩ := submitAnswer_turn_rotation "h" roomP gsH [entryH, entryB] true
    dbPlaying entryH 0 (by decide) (by decide)
  obtain ⟨pn, hpn, hgs⟩ := hsome "Q2"
  have hpn' : pn = entryB := by
    have := hpn.symm
    simp only [List.length_cons, List.length_singleton] at this
    simpa using this
  subst hpn'
  constructor
  · rw [hgs]
    decide
  · exact hnone

/-- Claim C10: when the current_turn participant is absent from a
non-empty roster, findIndex yields -1, so the next index is (-1 + 1) mod
length = 0: the rotation stays in bounds, the first roster entry becomes
current_turn, and the round increments by one. -/
theorem submitAnswer_rotation_after_departure :
    ∀ (u : String) (r : Room) (gs : GameState) (players : List Player) (c : Bool)
      (q : Question) (db : DB) (me : Player),
      players.find? (fun p => p.player_id == u) = some me →
      (∀ p ∈ players, p.player_id ≠ gs.current_turn) →
      jsFindIndex players gs.current_turn = -1 ∧
      ∃ p0 : Player, players[0]? = some p0 ∧
        (submitAnswer (some u) (some r) (some gs) players c (some q) db).game_state =
          db.game_state.map (fun t =>
            if t.room_id = r.id then
              { t with current_turn := p0.player_id, current_question := q,
                       round := gs.round + 1, time_left := 30 }
            else t) := by
  intro u r gs players c q db me hfind habs
  have hidx : players.findIdx? (fun p => p.player_id == gs.current_turn) = none := by
    rw [List.findIdx?_eq_none_iff]
    intro x hx
    simpa using habs x hx
  have hji : jsFindIndex players gs.current_turn = -1 := by
    unfold jsFindIndex
    rw [hidx]
  have hmem : me ∈ players := List.mem_of_find?_eq_some hfind
  have hpos : 0 < players.length := List.length_pos.mpr (List.ne_nil_of_mem hmem)
  have hmod : Int.tmod (jsFindIndex players gs.current_turn + 1) (players.length : Int)
      = ((0 : Nat) : Int) := by
    rw [hji]
    have h01 : ((-1 : Int) + 1) = ((0 : Nat) : Int) := by norm_num
    rw [h01, tmod_natCast, Nat.zero_mod]
  have hget : players[0]? = some (players.get ⟨0, hpos⟩) := by
    simp [List.getElem?_eq_getElem hpos]
  refine ⟨hji, players.get ⟨0, hpos⟩, hget, ?_⟩
  unfold submitAnswer
  dsimp only
  rw [hfind]
  dsimp only
  rw [hmod]
  simp only [Int.toNat_natCast, Nat.cast_eq_zero]
  rw [hget]
  dsimp only
  split
  · split <;> rfl
  · exact absurd trivial (by assumption)

/-- Witness for C10: roster [h, b], current_turn = "gone": the turn passes
to h (the first entry) and the round increments from 1 to 2. -/
theorem submitAnswer_rotation_after_departure_witness :
    (submitAnswer (some "b") (some roomP) (some gsGone) [entryH, entryB] false (some "Q3")
        dbPlaying).game_state
      = [{ room_id := "r1", current_turn := "h", current_question := "Q3",
           round := 2, time_left := 30 }] := by
  obtain ⟨-, p0, hp0, hgs⟩ := submitAnswer_rotation_after_departure "b" roomP gsGone
    [entryH, entryB] false "Q3" dbPlaying entryB (by decide) (by decide)
  have hp0' : p0 = entryH := by
    have h := hp0.symm
    simpa using h
  subst hp0'
  rw [hgs]
  decide

/-- Claim C9: submitAnswer with isCorrect = false writes the caller's row
with lives = (local snapshot lives) - 1 over the integers, with no lower
bound — a snapshot of 0 ends at -1 — and no other controller operation
writes the lives column of an existing row (new rows get the DB-default
lives): nothing clamps or restores lives. -/
theorem submitAnswer_lives_unbounded_decrement :
    (∀ (u : String) (r : Room) (gs : GameState) (players : List Player)
        (nq : Option Question) (db : DB) (me : Player),
      players.find? (fun p => p.player_id == u) = some me →
      (submitAnswer (some u) (some r) (some gs) players false nq db).room_players =
        db.room_players.map (fun p =>
          if p.room_id = r.id ∧ p.player_id = u then { p with lives := me.lives - 1 } else p) ∧
      (me.lives = 0 →
        (submitAnswer (some u) (some r) (some gs) players false nq db).room_players =
          db.room_players.map (fun p =>
            if p.room_id = r.id ∧ p.player_id = u then { p with lives := (-1 : Int) }
            else p))) ∧
    (∀ (op : CtrlOp) (db : DB), livesDecrementOp op = false →
      ∀ p' ∈ (applyOp op db).room_players,
        (∃ p ∈ db.room_players, p.id = p'.id ∧ p'.lives = p.lives) ∨
        (∃ pdef, opInsertDefaults op = some pdef ∧ p'.lives = pdef.lives)) := by
  constructor
  · intro u r gs players nq db me hfind
    have hmain : (submitAnswer (some u) (some r) (some gs) players false nq db).room_players =
        db.room_players.map (fun p =>
          if p.room_id = r.id ∧ p.player_id = u then { p with lives := me.lives - 1 }
          else p) := by
      unfold submitAnswer
      dsimp only
      rw [hfind]
      dsimp only
      rw [if_neg Bool.false_ne_true]
      cases nq with
      | none => rfl
      | some q =>
        dsimp only
        split <;> rfl
    refine ⟨hmain, fun h0 => ?_⟩
    rw [hmain, h0]
    simp only [zero_sub]
  · intro op db hop p' hp'
    cases op with
    | create u m ds rd pd =>
      cases u with
      | none => exact Or.inl ⟨p', hp', rfl, rfl⟩
      | some u' =>
        dsimp only [applyOp, createRoom] at hp'
        rcases List.mem_append.mp hp' with h | h
        · exact Or.inl ⟨p', h, rfl, rfl⟩
        · right
          refine ⟨pd, rfl, ?_⟩
          rw [List.mem_singleton.mp h]
    | join u c pd =>
      cases u with
      | none => exact Or.inl ⟨p', hp', rfl, rfl⟩
      | some u' =>
        dsimp only [applyOp] at hp'
        unfold joinRoom at hp'
        dsimp only at hp'
        cases hfr : db.rooms.find? (fun r => r.room_code == c) with
        | none =>
          rw [hfr] at hp'
          dsimp only at hp'
          exact Or.inl ⟨p', hp', rfl, rfl⟩
        | some fr =>
          rw [hfr] at hp'
          dsimp only at hp'
          cases hex : db.room_players.find?
              (fun p => p.room_id == fr.id && p.player_id == u') with
          | some p0 =>
            rw [hex] at hp'
            dsimp only at hp'
            rcases List.mem_map.mp hp' with ⟨p, hp, rfl⟩
            left
            refine ⟨p, hp, ?_, ?_⟩
            · by_cases h : p.room_id = fr.id ∧ p.player_id = u' <;> simp [h]
            · by_cases h : p.room_id = fr.id ∧ p.player_id = u' <;> simp [h]
          | none =>
            rw [hex] at hp'
            dsimp only at hp'
            by_cases hfull : rosterCount db fr.id ≠ 0 ∧
                rosterCount db fr.id ≥ (if fr.max_players = 0 then 6 else fr.max_players)
            · rw [if_pos hfull] at hp'
              exact Or.inl ⟨p', hp', rfl, rfl⟩
            · rw [if_neg hfull] at hp'
              rcases List.mem_append.mp hp' with h | h
              · exact Or.inl ⟨p', h, rfl, rfl⟩
              · right
                refine ⟨pd, rfl, ?_⟩
                rw [List.mem_singleton.mp h]
    | leave u rm =>
      cases u with
      | none => exact Or.inl ⟨p', hp', rfl, rfl⟩
      | some u' =>
        cases rm with
        | none => exact Or.inl ⟨p', hp', rfl, rfl⟩
        | some r' =>
          dsimp only [applyOp, leaveRoom] at hp'
          exact Or.inl ⟨p', List.mem_of_mem_filter hp', rfl, rfl⟩
    | ready u rm ps =>
      cases u with
      | none => exact Or.inl ⟨p', hp', rfl, rfl⟩
      | some u' =>
        cases rm with
        | none => exact Or.inl ⟨p', hp', rfl, rfl⟩
        | some r' =>
          dsimp only [applyOp] at hp'
          unfold toggleReady at hp'
          dsimp only at hp'
          cases hfind : ps.find? (fun p => p.player_id == u') with
          | none =>
            rw [hfind] at hp'
            exact Or.inl ⟨p', hp', rfl, rfl⟩
          | some me =>
            rw [hfind] at hp'
            dsimp only at hp'
            rcases List.mem_map.mp hp' with ⟨p, hp, rfl⟩
            left
            refine ⟨p, hp, ?_, ?_⟩
            · by_cases h : p.room_id = r'.id ∧ p.player_id = u' <;> simp [h]
            · by_cases h : p.room_id = r'.id ∧ p.player_id = u' <;> simp [h]
    | start u rm ps q =>
      cases u with
      | none => exact Or.inl ⟨p', hp', rfl, rfl⟩
      | some u' =>
        cases rm with
        | none => exact Or.inl ⟨p', hp', rfl, rfl⟩
        | some r' =>
          dsimp only [applyOp] at hp'
          unfold startGame at hp'
          dsimp only at hp'
          split at hp'
          · exact Or.inl ⟨p', hp', rfl, rfl⟩
          · split at hp'
            · exact Or.inl ⟨p', hp', rfl, rfl⟩
            · exact Or.inl ⟨p', hp', rfl, rfl⟩
    | answer u rm gso ps ic nqo =>
      have hic : ic = true := by
        cases ic with
        | false => simp [livesDecrementOp] at hop
        | true => rfl
      subst hic
      cases u with
      | none => exact Or.inl ⟨p', hp', rfl, rfl⟩
      | some u' =>
        cases rm with
        | none => exact Or.inl ⟨p', hp', rfl, rfl⟩
        | some r' =>
          cases gso with
          | none => exact Or.inl ⟨p', hp', rfl, rfl⟩
          | some gs =>
            dsimp only [applyOp] at hp'
            unfold submitAnswer at hp'
            dsimp only at hp'
            cases hfind : ps.find? (fun p => p.player_id == u') with
            | none =>
              rw [hfind] at hp'
              exact Or.inl ⟨p', hp', rfl, rfl⟩
            | some me =>
              rw [hfind] at hp'
              dsimp only at hp'
              rw [if_pos rfl] at hp'
              have hmem : p' ∈ db.room_players.map (fun p =>
                  if p.room_id = r'.id ∧ p.player_id = u' then { p with score := me.score + 1 }
                  else p) := by
                cases nqo with
                | none => exact hp'
                | some q =>
                  dsimp only at hp'
                  revert hp'
                  split <;> (intro hp'; exact hp')
              rcases List.mem_map.mp hmem with ⟨p, hp, rfl⟩
              left
              refine ⟨p, hp, ?_, ?_⟩
              · by_cases h : p.room_id = r'.id ∧ p.player_id = u' <;> simp [h]
              · by_cases h : p.room_id = r'.id ∧ p.player_id = u' <;> simp [h]

/-- Witness for C9: "b" with a zero-lives snapshot answers wrong: the
stored row ends at lives = -1; and a toggleReady step leaves every lives
value unchanged (checked through the no-clamp clause at row p1). -/
theorem submitAnswer_lives_unbounded_decrement_witness :
    (submitAnswer (some "b") (some roomP) (some gsH) [entryH, entryB0] false none
        dbZero).room_players
      = [rowH, { rowB with lives := -1 }] ∧
    rowH.lives = 3 := by
  constructor
  · have h1 := (submitAnswer_lives_unbounded_decrement.1 "b" roomP gsH [entryH, entryB0]
      none dbZero entryB0 (by decide)).2 (by decide)
    rw [h1]
    decide
  · have h2 := submitAnswer_lives_unbounded_decrement.2
      (CtrlOp.ready (some "b") (some roomP) [entryH, entryB]) dbW rfl rowH (by decide)
    rcases h2 with ⟨p, hp, -, hl⟩ | ⟨pd, hpd, -⟩
    · rw [hl]
      have hp' : p = rowH ∨ p = rowB := by simpa [dbW] using hp
      rcases hp' with rfl | rfl <;> decide
    · simp [opInsertDefaults] at hpd
